import Mathlib

/-!
Verification development for PoCore's memory subsystem and error objects.

The definitions in this file are a shallow embedding of the C sources:
  memory.c  (pool allocator: alloc_block, get_block, pc_pool_root,
             pc_pool_create, internal_alloc, pc_alloc, pc_pool_freemem,
             pc_pool_clear, return_nonstd)
  misc.c    (pc_context_create_custom)
  error.c   (create_error, LINK_ON_UNHANDLED, scan_useful, free_link,
             pc_error_handled, unlink_wrapped, pc__error_wrap_internal,
             pc__error_join_internal, pc__error_trace_internal, accessors)
  pocore.h  (struct layouts; LP64 sizes are used for the sizeof constants)

Pointers are modelled as natural-number addresses; intrusive next-pointer
chains are modelled as Lean lists in chain order; machine arithmetic on
size_t is Nat with an explicit mod 2^64 where the C expression can wrap.

Two pieces of the repository are declared in pocore.h but their sources
(red_black.c and track.c) are not present; they are modelled from the
spec, each marked with a `Modelled from the spec:` doc comment.
-/

namespace PoCore

/-- Size in bytes of struct pc_block_s on an LP64 platform
    (size_t size; struct pc_block_s *next). -/
def sizeofBlock : Nat := 16

/-- Size in bytes of struct pc_pool_s on an LP64 platform: current(8),
    coalesce(4+4 padding), current_block(8), first_block(8), remnants(8),
    nonstd_blocks(8), ctx(8), parent(8), sibling(8), child(8),
    track union(4 pointers = 32). -/
def sizeofPool : Nat := 112

/-- Size in bytes of struct pc_memtree_s on LP64: an embedded pc_block_s
    (16) plus the smaller/larger child pointers (8 each). -/
def sizeofMemtree : Nat := 32

/-- Default standard block size, PC_MEMBLOCK_SIZE in pocore.h. -/
def PC_MEMBLOCK_SIZE : Nat := 8192

/-- Minimum standard block size, PC_MEMBLOCK_MINIMUM in pocore.h. -/
def PC_MEMBLOCK_MINIMUM : Nat := 256

/-- Modelled from the spec: the value of PC_DEFAULT_STDSIZE (declared in
    the absent header pc_memory.h). The spec says `stdsize == DEFAULT`
    means use the built-in default, and misc.c compares against it before
    the minimum clamp; the conventional sentinel 0 is used. -/
def PC_DEFAULT_STDSIZE : Nat := 0

/-- A memory block: struct pc_block_s. `addr` is the address of the block
    header itself (the C pointer value); `size` is the total size field,
    header included. The intrusive `next` link is represented by list
    membership in the various chains below. -/
structure Block where
  addr : Nat
  size : Nat
deriving DecidableEq

/-- Modelled from the spec: the memtree of red_black.c (declared in
    pocore.h, source not under src/). The spec (section 4.1) requires a
    collection of fragments keyed by size with best-fit fetch (smallest
    cached fragment of size at least the request, ties resolved to the
    head of that size's chain, chained LIFO). A list kept sorted by size,
    inserting a new fragment in front of equal-sized ones, realises
    exactly that observable behaviour; the red-black balancing and the
    colour bit packed into the size are representation artifacts the spec
    explicitly disclaims. -/
def memtreeInsert (b : Block) : List Block → List Block
  | [] => [b]
  | c :: rest =>
      if b.size ≤ c.size then b :: c :: rest
      else c :: memtreeInsert b rest

/-- Modelled from the spec: best-fit fetch from the memtree (red_black.c
    absent). On the sorted-list model the first adequate element is the
    best fit. Returns the fragment and the remaining tree, or none. -/
def memtreeFetch (amt : Nat) : List Block → Option (Block × List Block)
  | [] => none
  | c :: rest =>
      if amt ≤ c.size then some (c, rest)
      else match memtreeFetch amt rest with
           | none => none
           | some (b, t) => some (b, c :: t)

/-- Context state: the fields of struct pc_context_s that the memory
    subsystem reads and writes (std_blocks, nonstd_blocks, stdsize).
    `nextAddr` models the frontier of the raw allocator (malloc): each raw
    allocation returns the current frontier and advances it, so distinct
    live blocks have distinct addresses. -/
structure MemCtx where
  stdsize : Nat
  std_blocks : List Block
  nonstd_blocks : List Block
  nextAddr : Nat
deriving DecidableEq

/-- Pool state: the fields of struct pc_pool_s used by the allocation
    paths. The chain first_block -> ... -> current_block is first_block
    followed by `extra` in chain order; `base` is the address of the pool
    structure itself (first_block.addr + sizeofBlock, where pc_pool_root
    placed it). The tree links (parent/sibling/child) and the owner
    tracking union are modelled separately for the cleanup protocol. -/
structure Pool where
  current : Nat
  coalesce : Bool
  extra : List Block
  current_block : Block
  first_block : Block
  remnants : List Block
  nonstd_blocks : List Block
  base : Nat
deriving DecidableEq

/-- Combined allocator state threaded through the (single-pool)
    operations. -/
structure St where
  pool : Pool
  ctx : MemCtx
deriving DecidableEq

/-- alloc_block from memory.c: raw allocation (malloc branch of the #if),
    then block->size = size; block->next = NULL. The raw allocator is the
    monotone frontier in the context. -/
def alloc_block (c : MemCtx) (size : Nat) : Block × MemCtx :=
  ({ addr := c.nextAddr, size := size }, { c with nextAddr := c.nextAddr + size })

/-- get_block from memory.c: pop the head of ctx->std_blocks; if the list
    is empty, alloc_block(ctx->stdsize). -/
def get_block (c : MemCtx) : Block × MemCtx :=
  match c.std_blocks with
  | [] => alloc_block c c.stdsize
  | b :: rest => (b, { c with std_blocks := rest })

/-- pc_context_create_custom from misc.c: clamp stdsize (DEFAULT means
    the built-in 8192; anything below the minimum becomes 256), then
    zero-initialise. `firstAddr` seeds the raw-allocator frontier. -/
def pc_context_create_custom (stdsize : Nat) (firstAddr : Nat) : MemCtx :=
  let sz := if stdsize = PC_DEFAULT_STDSIZE then PC_MEMBLOCK_SIZE
            else if stdsize < PC_MEMBLOCK_MINIMUM then PC_MEMBLOCK_MINIMUM
            else stdsize
  { stdsize := sz, std_blocks := [], nonstd_blocks := [], nextAddr := firstAddr }

/-- pc_pool_root from memory.c: get a block, place the pool structure
    just after the block header, zero the pool, and point `current` just
    past the pool structure. -/
def pc_pool_root (c : MemCtx) : St :=
  let (block, c1) := get_block c
  let poolBase := block.addr + sizeofBlock
  { pool := { current := poolBase + sizeofPool
              coalesce := false
              extra := []
              current_block := block
              first_block := block
              remnants := []
              nonstd_blocks := []
              base := poolBase }
    ctx := c1 }

/-- internal_alloc from memory.c. Returns the address handed to the
    caller together with the updated state. The four paths of the source
    are translated in order: bump inside current_block, best-fit remnant
    (splitting the tail back when it exceeds sizeof(pc_memtree_s)),
    fresh standard block (saving the tail of the old current block as a
    remnant), and the non-standard path through the context's tree. -/
def internal_alloc (s : St) (amt : Nat) : Nat × St :=
  let p := s.pool
  let remaining := p.current_block.addr + p.current_block.size - p.current
  if remaining ≥ amt then
    (p.current, { s with pool := { p with current := p.current + amt } })
  else
    match memtreeFetch amt p.remnants with
    | some (block, rest) =>
        let remnant_remaining := block.size - amt
        let rest2 :=
          if remnant_remaining > sizeofMemtree then
            memtreeInsert { addr := block.addr + amt, size := remnant_remaining } rest
          else rest
        (block.addr, { s with pool := { p with remnants := rest2 } })
    | none =>
      if amt ≤ s.ctx.stdsize - sizeofBlock then
        let rem2 :=
          if remaining > sizeofMemtree then
            memtreeInsert { addr := p.current, size := remaining } p.remnants
          else p.remnants
        let (block, c1) := get_block s.ctx
        let result := block.addr + sizeofBlock
        ( result,
          { pool := { p with remnants := rem2
                             extra := p.extra ++ [block]
                             current_block := block
                             current := result + amt }
            ctx := c1 } )
      else
        let required := sizeofBlock + amt
        let (block, c1) :=
          match memtreeFetch required s.ctx.nonstd_blocks with
          | some (b, t) => (b, { s.ctx with nonstd_blocks := t })
          | none => alloc_block s.ctx required
        ( block.addr + sizeofBlock,
          { pool := { p with nonstd_blocks := block :: p.nonstd_blocks }
            ctx := c1 } )

/-- Alignment performed by pc_alloc: amt = (amt + 3) & ~3, computed on a
    64-bit size_t (the addition can wrap at 2^64). -/
def align4 (amt : Nat) : Nat := ((amt + 3) % 2 ^ 64) / 4 * 4

/-- pc_alloc from memory.c for a non-coalescing pool (coalesce_alloc adds
    a trailing size word; no claim exercises it, and the root pools of
    the claims have coalesce = false). -/
def pc_alloc (s : St) (amt : Nat) : Nat × St :=
  internal_alloc s (align4 amt)

/-- pc_pool_freemem from memory.c: drop fragments smaller than
    sizeof(struct pc_memtree_s), otherwise insert into the remnants. -/
def pc_pool_freemem (s : St) (mem len : Nat) : St :=
  if len < sizeofMemtree then s
  else { s with pool := { s.pool with remnants := memtreeInsert { addr := mem, size := len } s.pool.remnants } }

/-- return_nonstd from memory.c: walk the pool's nonstd chain from its
    head, inserting each block into the context's tree keyed by size. -/
def return_nonstd (c : MemCtx) : List Block → MemCtx
  | [] => c
  | b :: rest => return_nonstd { c with nonstd_blocks := memtreeInsert b c.nonstd_blocks } rest

/-- pc_pool_clear from memory.c, for a pool with no registered owners and
    no child pools: the do/while cleanup protocol (lines 203..230) then
    makes exactly one pass in which pc__track_cleanup_owners finds no
    owners and the child loop finds no children, so only the memory phase
    (lines 232..258) remains. The protocol itself, with owners present,
    is modelled separately below for the S4 scenario. Pointer comparison
    current_block != first_block is address comparison. -/
def pc_pool_clear (s : St) : St :=
  let p := s.pool
  let c1 := return_nonstd s.ctx p.nonstd_blocks
  let p1 := { p with nonstd_blocks := [] }
  let (p2, c2) :=
    if p1.current_block.addr ≠ p1.first_block.addr then
      ( { p1 with extra := [], current_block := p1.first_block },
        { c1 with std_blocks := p1.extra ++ c1.std_blocks } )
    else (p1, c1)
  { pool := { p2 with current := p2.base + sizeofPool, remnants := [] }
    ctx := c2 }

/-- Operations of claim C4's quantification: a finite sequence of
    alloc/freemem/clear calls against a single pool. -/
inductive Op where
  | alloc (amt : Nat)
  | freemem (mem len : Nat)
  | clear
deriving DecidableEq

/-- One operation applied to the allocator state. -/
def step (s : St) : Op → St
  | .alloc amt => (pc_alloc s amt).2
  | .freemem mem len => pc_pool_freemem s mem len
  | .clear => pc_pool_clear s

/-- A sequence of operations applied in order. -/
def runOps (s : St) : List Op → St
  | [] => s
  | op :: rest => runOps (step s op) rest

/-! Cleanup protocol (pool tree, owners).  The drain of a pool's owner
list lives in track.c, which is not among the sources; it is modelled
from the spec below.  The outer do/while loop is pc_pool_clear
lines 203..230 of memory.c. -/

/-- Behaviour of a registered owner's cleanup callback, for the
    re-entrant scenario of claim C8: either do nothing, or create a new
    child pool of this pool and register one further (quiet) owner on
    this pool. -/
inductive Beh where
  | quiet
  | spawnChildAndOwner
deriving DecidableEq

/-- Tracking state of one pool: its owner list (head = most recently
    registered, per the spec's head-insertion) and its child list (head =
    most recently created, as pc_pool_create hooks new pools at the head
    of parent->child). `nextChild` names freshly created children. -/
structure TrackState where
  owners : List Beh
  children : List Nat
  nextChild : Nat
deriving DecidableEq

/-- Observable events of the cleanup protocol: an owner's cleanup ran, or
    a child pool was destroyed. -/
inductive CleanupEvent where
  | cleaned (b : Beh)
  | childDestroyed (c : Nat)
deriving DecidableEq

/-- Effect of running one owner's cleanup callback. A spawning callback
    creates a child of the pool (hooked at the head of the child list)
    and head-inserts a further quiet owner. -/
def runOwner : Beh → TrackState → TrackState
  | .quiet, st => st
  | .spawnChildAndOwner, st =>
      { owners := .quiet :: st.owners
        children := st.nextChild :: st.children
        nextChild := st.nextChild + 1 }

/-- Modelled from the spec: pc__track_cleanup_owners (track.c is absent).
    Spec section 4.4 and the comment at memory.c lines 213..215: pop the
    head owner, invoke its cleanup, and keep going until the owner list
    is empty, so owners attached by cleanups run before the function
    returns. Fuel bounds the loop; none means the fuel ran out. -/
def pc__track_cleanup_owners : Nat → TrackState → List CleanupEvent → Option (TrackState × List CleanupEvent)
  | 0, _, _ => none
  | fuel + 1, st, tr =>
      match st.owners with
      | [] => some (st, tr)
      | o :: rest =>
          pc__track_cleanup_owners fuel (runOwner o { st with owners := rest }) (tr ++ [.cleaned o])

/-- Child-destruction loop of pc_pool_clear (lines 225..226): destroy the
    head of the child list until none is left; each child removes itself
    from the list. The children created by the behaviours above have no
    owners and no children of their own, so pc_pool_destroy on them
    reduces to unlinking and is recorded as one event. -/
def destroy_children (st : TrackState) (tr : List CleanupEvent) : TrackState × List CleanupEvent :=
  ({ st with children := [] }, tr ++ st.children.map .childDestroyed)

/-- The do/while cleanup protocol of pc_pool_clear (lines 203..230):
    drain the owners, destroy all children, and loop while more owners
    have appeared. Fuel bounds the number of passes; none means the
    protocol did not terminate within the fuel. -/
def clear_protocol : Nat → TrackState → List CleanupEvent → Option (TrackState × List CleanupEvent)
  | 0, _, _ => none
  | fuel + 1, st, tr =>
      match pc__track_cleanup_owners (fuel + 1) st tr with
      | none => none
      | some (st1, tr1) =>
          let (st2, tr2) := destroy_children st1 tr1
          if st2.owners = [] then some (st2, tr2)
          else clear_protocol fuel st2 tr2

/-! Instrumented block acquisition for claim C7.  The raw allocator
(malloc in alloc_block) is an oracle that may fail; the source code of
alloc_block contains no reference to ctx->oom_handler, and on a NULL
result it immediately writes block->size through the null pointer. -/

/-- alloc_block from memory.c with the raw allocator made explicit.
    When raw allocation fails the source dereferences the NULL result
    (block->size = size), modelled as none; no OOM handler is consulted
    anywhere on this path. -/
def alloc_block_checked (raw : Nat → Option Nat) (size : Nat) : Option Block :=
  match raw size with
  | none => none
  | some a => some { addr := a, size := size }

/-- get_block from memory.c with the raw allocator made explicit: pop the
    head of std_blocks; only when the list is empty is a raw allocation
    of stdsize bytes attempted. Returns the block and the remaining free
    list, or none when the raw allocation failed (crash). -/
def get_block_checked (raw : Nat → Option Nat) (c : MemCtx) : Option (Block × List Block) :=
  match c.std_blocks with
  | [] => (alloc_block_checked raw c.stdsize).map (fun b => (b, []))
  | b :: rest => some (b, rest)

/-- Result of the oom_handler, per pocore.h's comment on the field:
    try one more time, return NULL, or abort. -/
inductive OomResult where
  | retry
  | failnull
  | abortrun
deriving DecidableEq

/-- Outcome of acquiring a standard block under the spec's contract. -/
inductive AcqResult where
  | ok (b : Block)
  | nullres
  | aborted
deriving DecidableEq

/-- Modelled from the spec: the raw-allocation loop of
    acquire_standard_block (spec section 4.2). On raw failure the
    oom_handler is invoked with the requested amount and its result is
    honoured: retry loops (bounded by fuel), fail-null reports a null
    result to the caller, abort terminates the process. -/
def oom_raw_loop (raw : Nat → Option Nat) (handler : Nat → OomResult) (size : Nat) :
    Nat → Option AcqResult
  | 0 => none
  | fuel + 1 =>
      match raw size with
      | some a => some (.ok { addr := a, size := size })
      | none =>
          match handler size with
          | .retry => oom_raw_loop raw handler size fuel
          | .failnull => some .nullres
          | .abortrun => some .aborted

/-- Modelled from the spec: acquire_standard_block (spec section 4.2):
    pop the head of std_blocks; if empty, call raw_alloc(stdsize), with
    OOM failures routed through the oom_handler. -/
def acquire_standard_block_spec (raw : Nat → Option Nat) (handler : Nat → OomResult)
    (c : MemCtx) (fuel : Nat) : Option AcqResult :=
  match c.std_blocks with
  | b :: _ => some (.ok b)
  | [] => oom_raw_loop raw handler c.stdsize fuel

/-! Error objects (error.c).  Errors live in the context's error pool;
they are modelled as a heap of numbered nodes.  An error id is its
address; the heap is an association list.  pc_error_list_s embeds the
error, so the link fields (previous/next) are part of the node; for
errors allocated without tracking they are simply never consulted.  The
PREVIOUS field can hold NULL, the STOP_PROCESSING_MARKER, or a pointer,
so it is a three-way sum.  A crashing execution (assertion failure,
dereference of NULL or of the STOP marker) is Option none. -/

/-- The previous field of struct pc_error_list_s: NULL, the
    STOP_PROCESSING_MARKER, or a pointer to another link. -/
inductive PrevPtr where
  | null
  | stop
  | ptr (i : Nat)
deriving DecidableEq

/-- One error record: struct pc_error_s together with the previous/next
    links of the enclosing struct pc_error_list_s. The file/lineno
    fields are omitted (no claim observes them). -/
structure ENode where
  code : Int
  msg : Option String
  original : Option Nat
  separate : Option Nat
  prev : PrevPtr
  next : Option Nat
deriving DecidableEq

/-- Heap lookup by error id. -/
def hget : List (Nat × ENode) → Nat → Option ENode
  | [], _ => none
  | (j, n) :: rest, i => if j = i then some n else hget rest i

/-- Heap update (or allocation of a fresh id) by error id. -/
def hset : List (Nat × ENode) → Nat → ENode → List (Nat × ENode)
  | [], i, n => [(i, n)]
  | (j, m) :: rest, i, n => if j = i then (j, n) :: rest else (j, m) :: hset rest i n

/-- Heap deallocation: pc_pool_freemem of the link structure. -/
def hdel : List (Nat × ENode) → Nat → List (Nat × ENode)
  | [], _ => []
  | (j, m) :: rest, i => if j = i then rest else (j, m) :: hdel rest i

/-- Context state seen by error.c: the error heap, the head of the
    doubly-linked unhandled list, the allocation counter of the error
    pool, and the track_unhandled/tracing configuration flags. -/
structure EState where
  heap : List (Nat × ENode)
  unhandled : Option Nat
  nextId : Nat
  track_unhandled : Bool
  tracing : Bool
deriving DecidableEq

/-- PC_SUCCESS. -/
def PC_SUCCESS : Int := 0

/-- Modelled from the spec: the well-known error codes (the header
    pc_error.h is absent; spec section 6 lists SUCCESS, TRACE,
    IMPROPER_WRAP and IMPROPER_UNHANDLED_CALL as distinct codes, and
    only their distinctness is observable). -/
def PC_ERR_TRACE : Int := -1

/-- Modelled from the spec: see PC_ERR_TRACE. -/
def PC_ERR_IMPROPER_WRAP : Int := -2

/-- Modelled from the spec: see PC_ERR_TRACE. -/
def PC_ERR_IMPROPER_UNHANDLED_CALL : Int := -3

/-- create_error from error.c. When track_unhandled is set, the fresh
    link is head-inserted: previous := NULL, next := old head, head :=
    link. Note the source does NOT update the old head's previous
    pointer. Without tracking, a bare error is allocated and the list is
    untouched. -/
def create_error (s : EState) (code : Int) (msg : Option String) (original : Option Nat) :
    Nat × EState :=
  let i := s.nextId
  if s.track_unhandled then
    let node : ENode :=
      { code := code, msg := msg, original := original, separate := none
        prev := .null, next := s.unhandled }
    (i, { s with heap := hset s.heap i node, unhandled := some i, nextId := i + 1 })
  else
    let node : ENode :=
      { code := code, msg := msg, original := original, separate := none
        prev := .null, next := none }
    (i, { s with heap := hset s.heap i node, nextId := i + 1 })

/-- The LINK_ON_UNHANDLED macro of error.c: previous is a real pointer
    (neither NULL nor the STOP marker), or next is non-null, or the link
    is the head of the context's unhandled list. -/
def LINK_ON_UNHANDLED (s : EState) (i : Nat) : Bool :=
  match hget s.heap i with
  | none => false
  | some n =>
      (match n.prev with | .ptr _ => true | _ => false)
        || n.next.isSome || (s.unhandled == some i)

/-- scan_useful from error.c: skip PC_ERR_TRACE records by following
    original links; may reach NULL. Fuel bounds the walk (every chain a
    claim touches is finite); on fuel exhaustion the current record is
    returned. -/
def scan_useful (h : List (Nat × ENode)) : Nat → Option Nat → Option Nat
  | _, none => none
  | fuel, some i =>
      match hget h i with
      | none => none
      | some n =>
          if n.code == PC_ERR_TRACE then
            match fuel with
            | 0 => some i
            | fuel + 1 => scan_useful h fuel n.original
          else some i

/-- pc_error_code from error.c: the useful error's code, or PC_SUCCESS
    for a null error. -/
def pc_error_code (h : List (Nat × ENode)) (fuel : Nat) (e : Option Nat) : Int :=
  match scan_useful h fuel e with
  | none => PC_SUCCESS
  | some i =>
      match hget h i with
      | none => PC_SUCCESS
      | some n => n.code

/-- pc_error_message from error.c: the useful error's message, or null. -/
def pc_error_message (h : List (Nat × ENode)) (fuel : Nat) (e : Option Nat) : Option String :=
  match scan_useful h fuel e with
  | none => none
  | some i =>
      match hget h i with
      | none => none
      | some n => n.msg

/-- pc_error_original from error.c: scan_useful of the argument. -/
def pc_error_original (h : List (Nat × ENode)) (fuel : Nat) (e : Option Nat) : Option Nat :=
  scan_useful h fuel e

/-- pc_error_separate from error.c: the first non-tracing error among
    the useful error's separate chain, or null when there is no useful
    error. -/
def pc_error_separate (h : List (Nat × ENode)) (fuel : Nat) (e : Option Nat) : Option Nat :=
  match scan_useful h fuel e with
  | none => none
  | some i =>
      match hget h i with
      | none => none
      | some n => scan_useful h fuel n.separate

/-- A chain consisting only of TRACE records, the innermost original
    being null, checkable within the given fuel. -/
def trace_only (h : List (Nat × ENode)) : Nat → Option Nat → Bool
  | _, none => true
  | 0, some _ => false
  | fuel + 1, some i =>
      match hget h i with
      | none => false
      | some n => (n.code == PC_ERR_TRACE) && trace_only h fuel n.original

/-- free_error from error.c (the untracked branch of pc_error_handled):
    recursively free original and separate subtrees, then the record.
    Fuel bounds the recursion. -/
def free_error (s : EState) : Nat → Nat → Option EState
  | 0, _ => none
  | fuel + 1, i =>
      match hget s.heap i with
      | none => none
      | some n =>
          let s1 := match n.original with
                    | none => some s
                    | some j => free_error s fuel j
          match s1 with
          | none => none
          | some s2 =>
              let s3 := match n.separate with
                        | none => some s2
                        | some j => free_error s2 fuel j
              match s3 with
              | none => none
              | some s4 => some { s4 with heap := hdel s4.heap i }

/-- free_link from error.c: stop at the STOP marker; assert that the
    link is NOT on the unhandled list (a failing assert is none); then
    recursively free the original and separate subtrees and the link
    itself. -/
def free_link (s : EState) : Nat → Nat → Option EState
  | 0, _ => none
  | fuel + 1, i =>
      match hget s.heap i with
      | none => none
      | some n =>
          if n.prev == .stop then some s
          else if LINK_ON_UNHANDLED s i then none
          else
            let s1 := match n.original with
                      | none => some s
                      | some j => free_link s fuel j
            match s1 with
            | none => none
            | some s2 =>
                let s3 := match n.separate with
                          | none => some s2
                          | some j => free_link s2 fuel j
                match s3 with
                | none => none
                | some s4 => some { s4 with heap := hdel s4.heap i }

/-- pc_error_handled from error.c: without tracking, free the error
    tree. With tracking, assert the unhandled list is non-empty (none on
    failure); if the link is on the list, free the whole link tree
    (note: the source does NOT first unlink it, so free_link's own
    assertion faces a link that is still the list head); otherwise mark
    the link with the STOP sentinel and create an
    IMPROPER_UNHANDLED_CALL error wrapping it. -/
def pc_error_handled (s : EState) (fuel : Nat) (i : Nat) : Option EState :=
  match hget s.heap i with
  | none => none
  | some n =>
      if s.track_unhandled = false then free_error s fuel i
      else if s.unhandled == none then none
      else if LINK_ON_UNHANDLED s i then free_link s fuel i
      else
        let s1 := { s with heap := hset s.heap i { n with prev := .stop } }
        some (create_error s1 PC_ERR_IMPROPER_UNHANDLED_CALL none (some i)).2

/-- unlink_wrapped from error.c. If the link is judged off the list by
    LINK_ON_UNHANDLED, mark it STOP and create an IMPROPER_WRAP error
    wrapping it. If it is the list head, assert previous == NULL, pop it
    and clear the new head's previous. Otherwise assert previous != NULL
    and splice previous/next together (previous == STOP would store
    through the marker address: undefined behaviour, none). -/
def unlink_wrapped (s : EState) (i : Nat) : Option EState :=
  match hget s.heap i with
  | none => none
  | some n =>
      if LINK_ON_UNHANDLED s i = false then
        let s1 := { s with heap := hset s.heap i { n with prev := .stop } }
        some (create_error s1 PC_ERR_IMPROPER_WRAP none (some i)).2
      else if s.unhandled == some i then
        match n.prev with
        | .null =>
            let s1 := { s with unhandled := n.next }
            let h2 := match n.next with
                      | none => some s1.heap
                      | some j =>
                          match hget s1.heap j with
                          | none => none
                          | some m => some (hset s1.heap j { m with prev := .null })
            match h2 with
            | none => none
            | some h3 =>
                match hget h3 i with
                | none => none
                | some n2 => some { s1 with heap := hset h3 i { n2 with next := none } }
        | _ => none
      else
        match n.prev with
        | .ptr pj =>
            let h1 := match hget s.heap pj with
                      | none => none
                      | some m => some (hset s.heap pj { m with next := n.next })
            match h1 with
            | none => none
            | some h2 =>
                let h3 := match n.next with
                          | none => some h2
                          | some j =>
                              match hget h2 j with
                              | none => none
                              | some m => some (hset h2 j { m with prev := .ptr pj })
                match h3 with
                | none => none
                | some h4 =>
                    match hget h4 i with
                    | none => none
                    | some n2 =>
                        some { s with heap := hset h4 i { n2 with prev := .null, next := none } }
        | _ => none

/-- pc__error_wrap_internal from error.c: unlink the wrapped error, then
    create the wrapping error (head-inserted) with it as original. Note
    that this create happens even when unlink_wrapped took the improper
    path and already queued an IMPROPER_WRAP error. -/
def pc__error_wrap_internal (s : EState) (code : Int) (msg : Option String) (original : Nat) :
    Option (Nat × EState) :=
  match unlink_wrapped s original with
  | none => none
  | some s1 => some (create_error s1 code msg (some original))

/-- pc__error_trace_internal from error.c: wrap in a TRACE record when
    the context is tracing, otherwise return the error unchanged. -/
def pc__error_trace_internal (s : EState) (i : Nat) : Nat × EState :=
  if s.tracing then create_error s PC_ERR_TRACE none (some i)
  else (i, s)

/-- The inner loop of pc__error_join_internal, translated exactly as
    written: while (scan->separate != NULL) scan = error->separate — the
    loop body re-reads ERROR's separate field, not SCAN's. Returns the
    node whose separate field the code would then assign, none when the
    loop dereferences NULL or the fuel runs out (non-termination). -/
def join_scan (h : List (Nat × ENode)) (errId : Nat) : Nat → Nat → Option Nat
  | 0, _ => none
  | fuel + 1, scan =>
      match hget h scan with
      | none => none
      | some n =>
          match n.separate with
          | none => some scan
          | some _ =>
              match hget h errId with
              | none => none
              | some en =>
                  match en.separate with
                  | none => none
                  | some j => join_scan h errId fuel j

/-- Modelled from the spec: the intended join loop (spec sections 4.5
    and 9): walk SCAN's own separate links to the end of the chain. -/
def join_scan_spec (h : List (Nat × ENode)) : Nat → Nat → Option Nat
  | 0, _ => none
  | fuel + 1, scan =>
      match hget h scan with
      | none => none
      | some n =>
          match n.separate with
          | none => some scan
          | some j => join_scan_spec h fuel j

/-- Tail of pc__error_join_internal after the loop: scan->separate =
    separate, then wrap a trace record around the joined error. -/
def join_finish (s1 : EState) (error separate : Nat) (last : Option Nat) :
    Option (Nat × EState) :=
  match last with
  | none => none
  | some l =>
      match hget s1.heap l with
      | none => none
      | some n =>
          some (pc__error_trace_internal
                  { s1 with heap := hset s1.heap l { n with separate := some separate } }
                  error)

/-- pc__error_join_internal from error.c: unlink the separate error,
    find the end of the error's separate chain with the loop as written,
    hook the separate error there, and wrap a trace record. -/
def pc__error_join_internal (s : EState) (error separate : Nat) (fuel : Nat) :
    Option (Nat × EState) :=
  match unlink_wrapped s separate with
  | none => none
  | some s1 =>
      match scan_useful s1.heap fuel (some error) with
      | none => none
      | some scan0 => join_finish s1 error separate (join_scan s1.heap error fuel scan0)

/-- Membership of an error id on the context's unhandled list: reachable
    from the head by following next links (this, not the
    LINK_ON_UNHANDLED shortcut, is what being on the doubly-linked list
    means). -/
def on_unhandled_list (h : List (Nat × ENode)) : Nat → Option Nat → Nat → Bool
  | 0, _, _ => false
  | _, none, _ => false
  | fuel + 1, some j, i =>
      if j = i then true
      else
        match hget h j with
        | none => false
        | some n => on_unhandled_list h fuel n.next i

/-! Reachability invariant for claim C4. -/

/-- The last block of a chain, with a default for the empty chain. -/
def lastBlock : List Block → Block → Block
  | [], d => d
  | b :: t, _ => lastBlock t b

/-- Invariant of the single-pool allocator states reachable from a fresh
    root pool by alloc/freemem/clear: the block chain is consistent
    (current_block is the last of first_block :: extra), every block
    other than first_block sits at a strictly larger address than
    first_block (raw allocation is a monotone frontier and first_block
    is the oldest), the pool structure sits just after first_block's
    header, the bump pointer stays within current_block, every block on
    the standard chains has size stdsize, and stdsize respects the
    minimum that pc_context_create_custom enforces. -/
structure Inv (s : St) : Prop where
  chain : s.pool.current_block = lastBlock s.pool.extra s.pool.first_block
  extraGt : ∀ b ∈ s.pool.extra, s.pool.first_block.addr < b.addr
  stdGt : ∀ b ∈ s.ctx.std_blocks, s.pool.first_block.addr < b.addr
  frontier : s.pool.first_block.addr < s.ctx.nextAddr
  baseEq : s.pool.base = s.pool.first_block.addr + sizeofBlock
  curLe : s.pool.current ≤ s.pool.current_block.addr + s.pool.current_block.size
  firstSize : s.pool.first_block.size = s.ctx.stdsize
  extraSize : ∀ b ∈ s.pool.extra, b.size = s.ctx.stdsize
  stdSize : ∀ b ∈ s.ctx.std_blocks, b.size = s.ctx.stdsize
  minStd : PC_MEMBLOCK_MINIMUM ≤ s.ctx.stdsize

/-! Concrete scenario states. -/

/-- Scenario S1 (claim C1): context with stdsize 8192 (raw frontier
    seeded at address 4096), fresh root pool. -/
def c1s0 : St := pc_pool_root (pc_context_create_custom 8192 4096)

/-- Scenario S1: first allocation, alloc(p, 100). -/
def c1r1 : Nat × St := pc_alloc c1s0 100

/-- Scenario S1: second allocation, alloc(p, 200). -/
def c1r2 : Nat × St := pc_alloc c1r1.2 200

/-- Scenario S1: allocation after clear(p), alloc(p, 100). -/
def c1r3 : Nat × St := pc_alloc (pc_pool_clear c1r2.2) 100

/-- Scenario S2 (claim C5): context with stdsize 1024, fresh root pool. -/
def c5s0 : St := pc_pool_root (pc_context_create_custom 1024 4096)

/-- Scenario S2: the oversized allocation alloc(p, 4000). -/
def c5res : Nat × St := pc_alloc c5s0 4000

/-- Scenario S2: state after clear(p). -/
def c5cleared : St := pc_pool_clear c5res.2

/-- Scenario S4 (claim C8): one owner registered on the pool whose
    cleanup creates a child of the pool and registers one further owner
    that registers no more work. -/
def s4init : TrackState := { owners := [.spawnChildAndOwner], children := [], nextChild := 0 }

/-- Claim C2's input: a tracked context whose heap holds an error 0
    whose separate chain has two further elements (0 -> 1 -> 2), plus a
    tracked error 3 (the head of the unhandled list) to be joined onto
    the end of that chain. -/
def c2state : EState :=
  { heap :=
      [ (0, { code := 42, msg := none, original := none, separate := some 1
              prev := .null, next := none })
      , (1, { code := 43, msg := none, original := none, separate := some 2
              prev := .null, next := none })
      , (2, { code := 44, msg := none, original := none, separate := none
              prev := .null, next := none })
      , (3, { code := 7, msg := none, original := none, separate := none
              prev := .null, next := none }) ]
    unhandled := some 3
    nextId := 4
    track_unhandled := true
    tracing := false }

/-- Scenario S5 (claim C3), first step: e1 = error_create(ctx, 42, "bad")
    on a fresh tracking context. -/
def c3create : Nat × EState :=
  create_error
    { heap := [], unhandled := none, nextId := 0, track_unhandled := true, tracing := false }
    42 (some "bad") none

/-- Scenario S5 (claim C3), second step: e2 = error_wrap(7, "outer", e1). -/
def c3wrap : Option (Nat × EState) :=
  pc__error_wrap_internal c3create.2 7 (some "outer") c3create.1

/-- Claim C6's input, first step: a fresh tracking context with error e1
    (code 42) created first. -/
def c6e1 : Nat × EState :=
  create_error
    { heap := [], unhandled := none, nextId := 0, track_unhandled := true, tracing := false }
    42 none none

/-- Claim C6's input, second step: error e2 (code 43) created second, so
    the unhandled list is e2 -> e1. -/
def c6e2 : Nat × EState := create_error c6e1.2 43 none none

/-- Claim C6: wrap(7, msg, e1) while e1 is on the unhandled list but not
    its head. -/
def c6wrap : Option (Nat × EState) := pc__error_wrap_internal c6e2.2 7 none c6e1.1

end PoCore

namespace PoCore

/-! Theorems for the claims. -/

/-- Claim C1, counterexample: in the S1 run (stdsize 8192, fresh root
    pool, alloc 100 then alloc 200), the second result is NOT the first
    plus 104: pc_alloc aligns to 4 bytes ((amt + 3) & ~3), and 100 is
    already a multiple of 4, so the first allocation consumes exactly
    100 bytes. -/
theorem C1_counterexample : ¬ (c1r2.1 = c1r1.1 + 104) := by decide

/-- Claim C1 as amended: with stdsize 8192 on a fresh root pool,
    alloc(p, 100) returns r1, alloc(p, 200) returns r2 = r1 + 100 (the
    code aligns to 4, and 100 is already 4-aligned), and after clear(p)
    the next alloc(p, 100) returns r3 = r1: the bump pointer restarts
    just past the pool header in the first block. -/
theorem C1_amended :
    c1r2.1 = c1r1.1 + 100 ∧
    c1r3.1 = c1r1.1 ∧
    c1r1.1 = c1s0.pool.base + sizeofPool := by decide

/-- Claim C5: with stdsize 1024 on a fresh pool, alloc(p, 4000) succeeds
    (returning the area just after the header of the one non-standard
    block now charged to p, so p.nonstd_blocks has exactly one element),
    and after clear(p) the context's nonstd tree holds exactly one node
    whose size is at least 4000 plus the block-header size. -/
theorem C5_oversized_spill :
    c5res.2.pool.nonstd_blocks.length = 1 ∧
    (c5res.2.pool.nonstd_blocks.all fun b => c5res.1 == b.addr + sizeofBlock) = true ∧
    c5cleared.ctx.nonstd_blocks.length = 1 ∧
    (c5cleared.ctx.nonstd_blocks.all fun b => decide (4000 + sizeofBlock ≤ b.size)) = true := by
  decide

/-- Claim C7, evaluated at the failing input: with an empty std_blocks
    list and a raw allocator that fails, the source's get_block/alloc_block
    crashes (it stores through the NULL result) without ever consulting
    the context's oom_handler, whereas the spec's acquire_standard_block
    honours the handler (here fail-null). The first conjunct shows the
    confirmed part: with a non-empty free list the head is popped and the
    raw allocator is not used. -/
theorem C7_oom_never_invoked :
    get_block_checked (fun _ => none)
        { stdsize := 512, std_blocks := [⟨7, 512⟩], nonstd_blocks := [], nextAddr := 0 } =
      some (⟨7, 512⟩, []) ∧
    get_block_checked (fun _ => none)
        { stdsize := 512, std_blocks := [], nonstd_blocks := [], nextAddr := 0 } = none ∧
    acquire_standard_block_spec (fun _ => none) (fun _ => .failnull)
        { stdsize := 512, std_blocks := [], nonstd_blocks := [], nextAddr := 0 } 5 =
      some .nullres := by
  decide

/-- Claim C8: for the S4 scenario (an owner whose cleanup creates a new
    child of p and registers one further quiet owner on p), clear(p)'s
    cleanup protocol terminates (within fuel 10), ends with no children
    and no owners, and its event trace shows both owner cleanups of the
    pass running before the child pool is destroyed. -/
theorem C8_reentrant_cleanup :
    clear_protocol 10 s4init [] =
      some ({ owners := [], children := [], nextChild := 1 },
            [.cleaned .spawnChildAndOwner, .cleaned .quiet, .childDestroyed 0]) := by
  decide

/-- Claim C9: clearing twice is the same as clearing once. For every
    allocator state (pool and context), pc_pool_clear applied to an
    already-cleared state changes nothing; and the cleanup protocol of a
    pool with no registered owners and no children completes in one pass
    emitting no events, so no cleanup re-runs on the second call. -/
theorem C9_clear_idempotent :
    (∀ s : St, pc_pool_clear (pc_pool_clear s) = pc_pool_clear s) ∧
    (∀ (fuel n : Nat) (tr : List CleanupEvent),
      clear_protocol (fuel + 1) { owners := [], children := [], nextChild := n } tr =
        some ({ owners := [], children := [], nextChild := n }, tr)) := by
  constructor
  · intro s
    obtain ⟨⟨cur, co, extra, cb, fb, rem, ns, base⟩, ctx⟩ := s
    by_cases h : cb.addr = fb.addr <;>
      simp [pc_pool_clear, return_nonstd, h]
  · intro fuel n tr
    simp [clear_protocol, pc__track_cleanup_owners, destroy_children]

/-- Witness for C9_clear_idempotent at a concrete state: a fresh root
    pool on a context with stdsize 512 and raw frontier 64. -/
theorem C9_clear_idempotent_witness :
    pc_pool_clear (pc_pool_clear (pc_pool_root (pc_context_create_custom 512 64))) =
      pc_pool_clear (pc_pool_root (pc_context_create_custom 512 64)) ∧
    clear_protocol (3 + 1) { owners := [], children := [], nextChild := 0 } [] =
      some ({ owners := [], children := [], nextChild := 0 }, []) :=
  ⟨C9_clear_idempotent.1 (pc_pool_root (pc_context_create_custom 512 64)),
   C9_clear_idempotent.2 3 0 []⟩

/-- The as-written join loop on claim C2's input never terminates once
    the scan reaches node 1: node 1's separate is non-null, and the body
    resets scan to error->separate = node 1 again, for every fuel. -/
lemma c2_join_scan_stuck : ∀ fuel : Nat, join_scan c2state.heap 0 fuel 1 = none := by
  intro fuel
  induction fuel with
  | zero => rfl
  | succ fuel ih => exact ih

/-- Claim C3, evaluated at the S5 input: after e1 = create(42, "bad")
    and e2 = wrap(7, "outer", e1) the unhandled list is exactly [e2]
    (and e1 is off it), but the first error_handled(e2) call already
    crashes: pc_error_handled reaches free_link while the link is still
    the head of the unhandled list, and free_link's own assertion
    !LINK_ON_UNHANDLED(link) fails (none). The improper-call protection
    the claim describes is therefore never reached, and there is no
    post-handled state on which a second call could run. -/
theorem C3_double_handled_crashes :
    (c3wrap.map fun pr => pr.2.unhandled == some pr.1) = some true ∧
    (c3wrap.map fun pr => on_unhandled_list pr.2.heap 10 pr.2.unhandled c3create.1) =
      some false ∧
    (c3wrap.bind fun pr => pc_error_handled pr.2 100 pr.1) = none := by
  decide

/-- Claim C6, evaluated at the failing input: errors e1 then e2 are
    created (list e2 -> e1), and wrap(7, msg, e1) is called on e1, which
    IS on the unhandled list. Because create_error never set e1's
    previous pointer when e2 was pushed in front of it,
    LINK_ON_UNHANDLED misjudges e1 as off-list: e1 is NOT removed from
    the list (still reachable from the head afterwards), e1 is marked
    with the STOP sentinel, a spurious IMPROPER_WRAP error wrapping e1
    is queued, and the head of the list is the ordinary wrap error
    (code 7), not the IMPROPER_WRAP error. -/
theorem C6_wrap_on_list_misjudged :
    on_unhandled_list c6e2.2.heap 10 c6e2.2.unhandled c6e1.1 = true ∧
    (c6wrap.map fun pr => on_unhandled_list pr.2.heap 10 pr.2.unhandled c6e1.1) = some true ∧
    (c6wrap.map fun pr => (hget pr.2.heap c6e1.1).map fun n => n.prev) =
      some (some .stop) ∧
    (c6wrap.map fun pr => (hget pr.2.heap 2).map fun n => (n.code, n.original)) =
      some (some (PC_ERR_IMPROPER_WRAP, some 0)) ∧
    (c6wrap.map fun pr => pr.2.unhandled) = some (some 3) ∧
    (c6wrap.map fun pr => (hget pr.2.heap 3).map fun n => (n.code, n.original)) =
      some (some (7, some 0)) := by
  decide

/-- Claim C2, evaluated at the failing input: joining a tracked error
    onto error 0, whose separate chain already has two elements
    (0 -> 1 -> 2), never terminates for any fuel, because the loop
    re-reads error->separate instead of scan->separate; the intended
    walk (spec section 4.5, design note section 9) finds the chain's
    last element 2, where the claim says the joined error is appended. -/
theorem C2_join_loop_diverges :
    (∀ fuel : Nat, pc__error_join_internal c2state 0 3 fuel = none) ∧
    join_scan_spec c2state.heap 10 0 = some 2 := by
  constructor
  · intro fuel
    cases fuel with
    | zero => rfl
    | succ fuel =>
        have h := c2_join_scan_stuck fuel
        show join_finish _ 0 3 (join_scan c2state.heap 0 fuel 1) = none
        rw [h]
        rfl
  · decide

/-- Witness for C2_join_loop_diverges at the concrete fuel 50. -/
theorem C2_join_loop_diverges_witness :
    pc__error_join_internal c2state 0 3 50 = none ∧
    join_scan_spec c2state.heap 10 0 = some 2 :=
  ⟨C2_join_loop_diverges.1 50, C2_join_loop_diverges.2⟩

/-- The last block of a chain is among the chain's blocks. -/
lemma lastBlock_mem_cons : ∀ (l : List Block) (a : Block), lastBlock l a ∈ a :: l := by
  intro l
  induction l with
  | nil => intro a; simp [lastBlock]
  | cons b t ih =>
      intro a
      exact List.mem_cons_of_mem a (ih b)

/-- Appending a block to a chain makes it the last block. -/
lemma lastBlock_concat : ∀ (l : List Block) (b d : Block), lastBlock (l ++ [b]) d = b := by
  intro l
  induction l with
  | nil => intro b d; rfl
  | cons a t ih => intro b d; exact ih b a

/-- Inserting into the memtree puts the inserted fragment in the tree. -/
lemma mem_memtreeInsert_self : ∀ (t : List Block) (b : Block), b ∈ memtreeInsert b t := by
  intro t
  induction t with
  | nil => intro b; simp [memtreeInsert]
  | cons c rest ih =>
      intro b
      by_cases h : b.size ≤ c.size <;> simp [memtreeInsert, h]
      exact Or.inr (ih b)

/-- Inserting into the memtree keeps the fragments already there. -/
lemma mem_memtreeInsert_of_mem : ∀ (t : List Block) (x b : Block), x ∈ t → x ∈ memtreeInsert b t := by
  intro t
  induction t with
  | nil => intro x b hx; cases hx
  | cons c rest ih =>
      intro x b hx
      by_cases h : b.size ≤ c.size
      · simp only [memtreeInsert, if_pos h]
        exact List.mem_cons_of_mem b hx
      · simp only [memtreeInsert, if_neg h]
        rcases List.mem_cons.mp hx with rfl | hx2
        · exact List.mem_cons_self _ _
        · exact List.mem_cons_of_mem c (ih x b hx2)

/-- return_nonstd only touches the context's nonstd tree: the standard
    list, the standard size and the raw frontier are unchanged. -/
lemma return_nonstd_preserves : ∀ (l : List Block) (c : MemCtx),
    (return_nonstd c l).std_blocks = c.std_blocks ∧
    (return_nonstd c l).stdsize = c.stdsize ∧
    (return_nonstd c l).nextAddr = c.nextAddr := by
  intro l
  induction l with
  | nil => intro c; exact ⟨rfl, rfl, rfl⟩
  | cons b t ih => intro c; simpa [return_nonstd] using ih _

/-- Fragments already cached in the context's nonstd tree survive
    return_nonstd. -/
lemma return_nonstd_mono : ∀ (l : List Block) (c : MemCtx) (x : Block),
    x ∈ c.nonstd_blocks → x ∈ (return_nonstd c l).nonstd_blocks := by
  intro l
  induction l with
  | nil => intro c x hx; exact hx
  | cons b t ih =>
      intro c x hx
      exact ih _ x (mem_memtreeInsert_of_mem _ x b hx)

/-- Every block handed to return_nonstd ends up in the context's nonstd
    tree. -/
lemma mem_return_nonstd : ∀ (l : List Block) (c : MemCtx) (b : Block),
    b ∈ l → b ∈ (return_nonstd c l).nonstd_blocks := by
  intro l
  induction l with
  | nil => intro c b hb; cases hb
  | cons x t ih =>
      intro c b hb
      rcases List.mem_cons.mp hb with rfl | hb2
      · exact return_nonstd_mono t _ b (mem_memtreeInsert_self _ b)
      · exact ih _ b hb2

/-- The stdsize stored by pc_context_create_custom respects the minimum
    block size. -/
lemma stdsize_min (sz a0 : Nat) :
    PC_MEMBLOCK_MINIMUM ≤ (pc_context_create_custom sz a0).stdsize := by
  simp only [pc_context_create_custom, PC_MEMBLOCK_MINIMUM, PC_MEMBLOCK_SIZE,
    PC_DEFAULT_STDSIZE]
  split
  · decide
  · split
    · exact Nat.le_refl _
    · omega

/-- The invariant holds for a fresh root pool on a fresh context. -/
lemma inv_init (sz a0 : Nat) : Inv (pc_pool_root (pc_context_create_custom sz a0)) := by
  have hS := stdsize_min sz a0
  simp only [PC_MEMBLOCK_MINIMUM] at hS
  refine ⟨rfl, ?_, ?_, ?_, rfl, ?_, rfl, ?_, ?_, ?_⟩
  · intro b hb; cases hb
  · intro b hb; cases hb
  · show a0 < a0 + (pc_context_create_custom sz a0).stdsize
    omega
  · show a0 + sizeofBlock + sizeofPool ≤ a0 + (pc_context_create_custom sz a0).stdsize
    simp only [sizeofBlock, sizeofPool]
    omega
  · intro b hb; cases hb
  · intro b hb; cases hb
  · show PC_MEMBLOCK_MINIMUM ≤ (pc_context_create_custom sz a0).stdsize
    simpa [PC_MEMBLOCK_MINIMUM] using hS

/-- What pc_pool_clear does to an invariant state: extras are pushed
    onto the context's standard list, nonstd blocks go to the context's
    tree, the chain collapses to first_block, the bump pointer returns
    just past the pool header, and the remnants are dropped. -/
lemma pc_pool_clear_spec (s : St) (h : Inv s) :
    (pc_pool_clear s).pool.extra = [] ∧
    (pc_pool_clear s).ctx.std_blocks = s.pool.extra ++ s.ctx.std_blocks ∧
    (pc_pool_clear s).pool.nonstd_blocks = [] ∧
    (pc_pool_clear s).ctx.nonstd_blocks =
      (return_nonstd s.ctx s.pool.nonstd_blocks).nonstd_blocks ∧
    (pc_pool_clear s).pool.current_block = s.pool.first_block ∧
    (pc_pool_clear s).pool.first_block = s.pool.first_block ∧
    (pc_pool_clear s).pool.current = s.pool.first_block.addr + sizeofBlock + sizeofPool ∧
    (pc_pool_clear s).pool.base = s.pool.first_block.addr + sizeofBlock ∧
    (pc_pool_clear s).pool.remnants = [] ∧
    (pc_pool_clear s).ctx.nextAddr = s.ctx.nextAddr ∧
    (pc_pool_clear s).ctx.stdsize = s.ctx.stdsize := by
  obtain ⟨⟨cur, co, extra, cb, fb, rem, ns, base⟩, ctx⟩ := s
  have hchain := h.chain
  have hbase := h.baseEq
  have hpres := return_nonstd_preserves ns ctx
  simp only at hchain hbase
  by_cases hcb : cb.addr = fb.addr
  · have hextra : extra = [] := by
      cases he : extra with
      | nil => rfl
      | cons b t =>
          exfalso
          have hmem : cb ∈ extra := by
            rw [hchain, he]
            exact lastBlock_mem_cons t b
          have := h.extraGt cb hmem
          simp only at this
          omega
    have hcbeq : cb = fb := by rw [hchain, hextra]; rfl
    simp only [pc_pool_clear]
    rw [if_neg (not_not_intro hcb)]
    dsimp only
    refine ⟨hextra, ?_, rfl, rfl, hcbeq, rfl, ?_, hbase, trivial, hpres.2.2, hpres.2.1⟩
    · rw [hpres.1, hextra, List.nil_append]
    · rw [hbase]
  · simp only [pc_pool_clear]
    rw [if_pos hcb]
    dsimp only
    refine ⟨rfl, ?_, rfl, rfl, rfl, rfl, ?_, hbase, trivial, hpres.2.2, hpres.2.1⟩
    · rw [hpres.1]
    · rw [hbase]

/-- pc_pool_clear preserves the reachability invariant. -/
lemma inv_pc_pool_clear (s : St) (h : Inv s) : Inv (pc_pool_clear s) := by
  obtain ⟨h1, h2, h3, h4, h5, h6, h7, h8, h9, h10, h11⟩ := pc_pool_clear_spec s h
  refine ⟨?_, ?_, ?_, ?_, ?_, ?_, ?_, ?_, ?_, ?_⟩
  · rw [h1, h5, h6]; rfl
  · intro b hb; rw [h1] at hb; cases hb
  · intro b hb
    rw [h2] at hb; rw [h6]
    rcases List.mem_append.mp hb with hb1 | hb2
    · exact h.extraGt b hb1
    · exact h.stdGt b hb2
  · rw [h6, h10]; exact h.frontier
  · rw [h6]; exact h8
  · rw [h7, h5]
    have hm := h.minStd
    have hfs := h.firstSize
    simp only [sizeofBlock, sizeofPool, PC_MEMBLOCK_MINIMUM] at *
    omega
  · rw [h6, h11]; exact h.firstSize
  · intro b hb; rw [h1] at hb; cases hb
  · intro b hb
    rw [h2] at hb; rw [h11]
    rcases List.mem_append.mp hb with hb1 | hb2
    · exact h.extraSize b hb1
    · exact h.stdSize b hb2
  · rw [h11]; exact h.minStd

/-- pc_pool_freemem preserves the reachability invariant (it only adds a
    fragment to the remnants). -/
lemma inv_pc_pool_freemem (s : St) (mem len : Nat) (h : Inv s) :
    Inv (pc_pool_freemem s mem len) := by
  unfold pc_pool_freemem
  split
  · exact h
  · exact ⟨h.chain, h.extraGt, h.stdGt, h.frontier, h.baseEq, h.curLe, h.firstSize,
      h.extraSize, h.stdSize, h.minStd⟩

/-- internal_alloc preserves the reachability invariant on every one of
    its four paths. -/
lemma inv_internal_alloc (s : St) (amt : Nat) (h : Inv s) :
    Inv (internal_alloc s amt).2 := by
  obtain ⟨⟨cur, co, extra, cb, fb, rem, ns, base⟩, ⟨sz, std, nonstd, na⟩⟩ := s
  have hchain := h.chain
  have hexGt := h.extraGt
  have hstdGt := h.stdGt
  have hfr := h.frontier
  have hbase := h.baseEq
  have hcur := h.curLe
  have hfs := h.firstSize
  have hes := h.extraSize
  have hss := h.stdSize
  have hmin := h.minStd
  simp only at hchain hexGt hstdGt hfr hbase hcur hfs hes hss hmin
  simp only [internal_alloc]
  by_cases hrem : cb.addr + cb.size - cur ≥ amt
  · rw [if_pos hrem]
    exact ⟨hchain, hexGt, hstdGt, hfr, hbase, by dsimp only; omega, hfs, hes, hss, hmin⟩
  · rw [if_neg hrem]
    rcases hws : memtreeFetch amt rem with - | ⟨block, rest⟩
    · simp only [hws]
      by_cases hfit : amt ≤ sz - sizeofBlock
      · rw [if_pos hfit]
        simp only [PC_MEMBLOCK_MINIMUM] at hmin
        simp only [sizeofBlock] at hfit
        cases std with
        | nil =>
            simp only [get_block, alloc_block]
            refine ⟨?_, ?_, ?_, ?_, hbase, ?_, hfs, ?_, ?_, hmin⟩
            · exact (lastBlock_concat extra _ fb).symm
            · intro b hb
              rcases List.mem_append.mp hb with hb1 | hb2
              · exact hexGt b hb1
              · rw [List.mem_singleton.mp hb2]
                exact hfr
            · intro b hb; cases hb
            · dsimp only; omega
            · dsimp only [sizeofBlock]; omega
            · intro b hb
              rcases List.mem_append.mp hb with hb1 | hb2
              · exact hes b hb1
              · rw [List.mem_singleton.mp hb2]
            · intro b hb; cases hb
        | cons b0 rest2 =>
            simp only [get_block]
            refine ⟨?_, ?_, ?_, hfr, hbase, ?_, hfs, ?_, ?_, hmin⟩
            · exact (lastBlock_concat extra _ fb).symm
            · intro b hb
              rcases List.mem_append.mp hb with hb1 | hb2
              · exact hexGt b hb1
              · rw [List.mem_singleton.mp hb2]
                exact hstdGt b0 (List.mem_cons_self b0 rest2)
            · intro b hb
              exact hstdGt b (List.mem_cons_of_mem b0 hb)
            · have hb0 : b0.size = sz := hss b0 (List.mem_cons_self b0 rest2)
              dsimp only [sizeofBlock]
              omega
            · intro b hb
              rcases List.mem_append.mp hb with hb1 | hb2
              · exact hes b hb1
              · rw [List.mem_singleton.mp hb2]
                exact hss b0 (List.mem_cons_self b0 rest2)
            · intro b hb
              exact hss b (List.mem_cons_of_mem b0 hb)
      · rw [if_neg hfit]
        rcases hwn : memtreeFetch (sizeofBlock + amt) nonstd with - | ⟨block, rest⟩
        · simp only [hwn, alloc_block]
          refine ⟨hchain, hexGt, hstdGt, ?_, hbase, hcur, hfs, hes, hss, hmin⟩
          dsimp only
          omega
        · simp only [hwn]
          exact ⟨hchain, hexGt, hstdGt, hfr, hbase, hcur, hfs, hes, hss, hmin⟩
    · simp only [hws]
      exact ⟨hchain, hexGt, hstdGt, hfr, hbase, hcur, hfs, hes, hss, hmin⟩

/-- Every single operation preserves the reachability invariant. -/
lemma inv_step (s : St) (op : Op) (h : Inv s) : Inv (step s op) := by
  cases op with
  | alloc amt => exact inv_internal_alloc s (align4 amt) h
  | freemem mem len => exact inv_pc_pool_freemem s mem len h
  | clear => exact inv_pc_pool_clear s h

/-- Every operation sequence preserves the reachability invariant. -/
lemma inv_runOps : ∀ (ops : List Op) (s : St), Inv s → Inv (runOps s ops) := by
  intro ops
  induction ops with
  | nil => intro s h; exact h
  | cons op rest ih => intro s h; exact ih _ (inv_step s op h)

/-- Claim C4: for every pool (fresh root pool on a fresh context,
    arbitrary requested stdsize and raw-allocator seed) and every finite
    sequence of alloc/freemem/clear operations, immediately after
    clear(p): the pool retains no standard block beyond first_block and
    the blocks after it were pushed onto the context's std_blocks list,
    every non-standard block was returned to the context's nonstd tree,
    current_block equals first_block, current points just past the pool
    header inside first_block (base = first_block + block header, and
    current = base + pool header), and the remnants tree is empty. -/
theorem C4_clear_invariant (stdsize0 a0 : Nat) (ops : List Op) (s t : St)
    (hs : s = runOps (pc_pool_root (pc_context_create_custom stdsize0 a0)) ops)
    (ht : t = pc_pool_clear s) :
    t.pool.extra = [] ∧
    t.ctx.std_blocks = s.pool.extra ++ s.ctx.std_blocks ∧
    t.pool.nonstd_blocks = [] ∧
    (∀ b ∈ s.pool.nonstd_blocks, b ∈ t.ctx.nonstd_blocks) ∧
    t.pool.current_block = t.pool.first_block ∧
    t.pool.first_block = s.pool.first_block ∧
    t.pool.current = t.pool.base + sizeofPool ∧
    t.pool.base = s.pool.first_block.addr + sizeofBlock ∧
    t.pool.remnants = [] := by
  subst ht
  subst hs
  have hinv := inv_runOps ops _ (inv_init stdsize0 a0)
  obtain ⟨h1, h2, h3, h4, h5, h6, h7, h8, h9, h10, h11⟩ := pc_pool_clear_spec _ hinv
  refine ⟨h1, h2, h3, ?_, ?_, h6, ?_, h8, h9⟩
  · intro b hb
    rw [h4]
    exact mem_return_nonstd _ _ b hb
  · rw [h5, h6]
  · rw [h7, h8]

/-- Witness for C4_clear_invariant at a concrete run: stdsize 1024, seed
    address 0, one oversized allocation; the invariant's hypotheses hold
    by rfl and the nonstd block of the run is concretely in the cleared
    context's tree. -/
theorem C4_clear_invariant_witness :
    (Block.mk 1024 4016) ∈
      (pc_pool_clear (runOps (pc_pool_root (pc_context_create_custom 1024 0))
        [Op.alloc 4000])).ctx.nonstd_blocks ∧
    (pc_pool_clear (runOps (pc_pool_root (pc_context_create_custom 1024 0))
        [Op.alloc 4000])).pool.remnants = [] := by
  have h := C4_clear_invariant 1024 0 [Op.alloc 4000] _ _ rfl rfl
  exact ⟨h.2.2.2.1 (Block.mk 1024 4016) (by decide), h.2.2.2.2.2.2.2.2⟩

/-- scan_useful of a null error is null, whatever the fuel. -/
lemma scan_useful_none (h : List (Nat × ENode)) (fuel : Nat) :
    scan_useful h fuel none = none := by
  cases fuel <;> rfl

/-- scan_useful on a chain consisting solely of TRACE records (ending in
    a null original) reaches the null end. -/
lemma scan_useful_trace_only (h : List (Nat × ENode)) :
    ∀ (fuel : Nat) (e : Option Nat), trace_only h fuel e = true → scan_useful h fuel e = none := by
  intro fuel
  induction fuel with
  | zero =>
      intro e he
      cases e with
      | none => rfl
      | some i => simp [trace_only] at he
  | succ fuel ih =>
      intro e he
      cases e with
      | none => rfl
      | some i =>
          cases hg : hget h i with
          | none => simp [trace_only, hg] at he
          | some n =>
              simp only [trace_only, hg, Bool.and_eq_true] at he
              simp only [scan_useful, hg, he.1, if_true]
              exact ih n.original he.2

/-- Claim C10: the error accessors are total over an optional error. For
    a null error, pc_error_code returns PC_SUCCESS and pc_error_message,
    pc_error_original and pc_error_separate return null; for an error
    whose chain consists only of TRACE records (the innermost original
    being null), the accessors behave exactly as for a null error. -/
theorem C10_accessors_total (h : List (Nat × ENode)) (fuel : Nat) (e : Option Nat) :
    (pc_error_code h fuel none = PC_SUCCESS ∧
     pc_error_message h fuel none = none ∧
     pc_error_original h fuel none = none ∧
     pc_error_separate h fuel none = none) ∧
    (trace_only h fuel e = true →
      pc_error_code h fuel e = PC_SUCCESS ∧
      pc_error_message h fuel e = none ∧
      pc_error_original h fuel e = none ∧
      pc_error_separate h fuel e = none) := by
  constructor
  · have hn := scan_useful_none h fuel
    exact ⟨by simp [pc_error_code, hn], by simp [pc_error_message, hn],
      by simpa [pc_error_original] using hn, by simp [pc_error_separate, hn]⟩
  · intro he
    have hs := scan_useful_trace_only h fuel e he
    refine ⟨?_, ?_, ?_, ?_⟩
    · simp [pc_error_code, hs]
    · simp [pc_error_message, hs]
    · simpa [pc_error_original] using hs
    · simp [pc_error_separate, hs]

/-- Witness for C10_accessors_total: a one-record heap holding a single
    TRACE error with null original; the trace_only hypothesis holds by
    computation and the accessors return the null-error answers. -/
theorem C10_accessors_total_witness :
    trace_only
        [(0, { code := PC_ERR_TRACE, msg := none, original := none, separate := none
               prev := .null, next := none })] 3 (some 0) = true ∧
    pc_error_code
        [(0, { code := PC_ERR_TRACE, msg := none, original := none, separate := none
               prev := .null, next := none })] 3 (some 0) = PC_SUCCESS ∧
    pc_error_separate
        [(0, { code := PC_ERR_TRACE, msg := none, original := none, separate := none
               prev := .null, next := none })] 3 (some 0) = none := by
  refine ⟨by decide, ?_, ?_⟩
  · exact ((C10_accessors_total
      [(0, { code := PC_ERR_TRACE, msg := none, original := none, separate := none
             prev := .null, next := none })] 3 (some 0)).2 (by decide)).1
  · exact ((C10_accessors_total
      [(0, { code := PC_ERR_TRACE, msg := none, original := none, separate := none
             prev := .null, next := none })] 3 (some 0)).2 (by decide)).2.2.2

end PoCore
